import Mathlib

/-
Verification development for the compile-time pure-function evaluator in
`src/cmd/compile/internal/walk/pure_eval.go`.

The Go source is shallowly embedded: `go/constant` values become the inductive
`Val`, IR argument nodes become `Node` (literal or not), parameter types keep
only the four kind predicates the source consults, and the external effects of
`executeHelperProgram` (temporary directory creation, file write, child-process
execution) are driven by an explicit oracle `ExecWorld` while the function
records its filesystem/process actions in an event trace.
-/

namespace PureEval

/-- Kinds of `go/constant` values (`constant.Kind`). -/
inductive ConstKind
  | string
  | int
  | float
  | bool
  | complex
  | unknown
deriving DecidableEq, Repr

/-- A `go/constant` value.  String, integer and boolean constants carry their
mathematical value; a float constant carries the canonical text that
`val.String()` produces for it (the Go source only ever renders floats through
`val.String()`, never inspects them). -/
inductive Val
  | str (s : String)
  | intVal (i : Int)
  | floatVal (render : String)
  | boolVal (b : Bool)
  | complexVal (render : String)
  | unknown
deriving DecidableEq, Repr

/-- Mirrors `val.Kind()`. -/
def Val.kind : Val → ConstKind
  | .str _ => .string
  | .intVal _ => .int
  | .floatVal _ => .float
  | .boolVal _ => .bool
  | .complexVal _ => .complex
  | .unknown => .unknown

/-- An IR argument node as far as `pure_eval.go` observes it: either an
`OLITERAL` carrying a constant value, or any other operation. -/
inductive Node
  | lit (v : Val)
  | nonlit
deriving DecidableEq, Repr

/-- Mirrors `arg.Op() == ir.OLITERAL`. -/
def Node.isLiteral : Node → Bool
  | .lit _ => true
  | .nonlit => false

/-- Mirrors `arg.Val()`.  A non-literal node has no constant value; in `go/constant`
terms its kind is `Unknown` (the source only calls `Val()` after the literal
check, so this case is never consulted on the paths we verify). -/
def Node.val : Node → Val
  | .lit v => v
  | .nonlit => .unknown

/-- A parameter type, retaining exactly the classification queried by the
source (`IsString`/`IsInteger`/`IsFloat`/`IsBoolean`); every other Go type
(composite, pointer, interface, complex, ...) is `tOther`. -/
inductive GoType
  | tString
  | tInt
  | tFloat
  | tBool
  | tOther
deriving DecidableEq, Repr

/-- Mirrors `param.Type.IsString()`. -/
def GoType.IsString : GoType → Bool
  | .tString => true
  | _ => false

/-- Mirrors `param.Type.IsInteger()`. -/
def GoType.IsInteger : GoType → Bool
  | .tInt => true
  | _ => false

/-- Mirrors `param.Type.IsFloat()`. -/
def GoType.IsFloat : GoType → Bool
  | .tFloat => true
  | _ => false

/-- Mirrors `param.Type.IsBoolean()`. -/
def GoType.IsBoolean : GoType → Bool
  | .tBool => true
  | _ => false

/-- Hexadecimal digit character (lowercase), for `d < 16`. -/
def hexDigitChar (d : Nat) : Char :=
  if d < 10 then Char.ofNat (48 + d) else Char.ofNat (87 + d)

/-- Value of a (lowercase) hexadecimal digit character. -/
def hexVal (c : Char) : Option Nat :=
  if 48 ≤ c.toNat ∧ c.toNat ≤ 57 then some (c.toNat - 48)
  else if 97 ≤ c.toNat ∧ c.toNat ≤ 102 then some (c.toNat - 87)
  else none

/-- Eight-hex-digit rendering of a code point, most significant digit first. -/
def hex8 (n : Nat) : List Char :=
  [hexDigitChar (n / 268435456 % 16), hexDigitChar (n / 16777216 % 16),
   hexDigitChar (n / 1048576 % 16), hexDigitChar (n / 65536 % 16),
   hexDigitChar (n / 4096 % 16), hexDigitChar (n / 256 % 16),
   hexDigitChar (n / 16 % 16), hexDigitChar (n % 16)]

/-- Combined value of eight hexadecimal digit characters. -/
def hexVal8 (a b c d e f g h : Char) : Option Nat := do
  let x1 ← hexVal a
  let x2 ← hexVal b
  let x3 ← hexVal c
  let x4 ← hexVal d
  let x5 ← hexVal e
  let x6 ← hexVal f
  let x7 ← hexVal g
  let x8 ← hexVal h
  pure ((((((((x1 * 16 + x2) * 16 + x3) * 16 + x4) * 16 + x5) * 16 + x6) * 16 + x7) * 16) + x8)

/-- Printable ASCII range (space through tilde). -/
def isPrintableAscii (c : Char) : Bool :=
  32 ≤ c.toNat && c.toNat ≤ 126

/-- Modelled from the spec: escaping of one character inside a double-quoted
Go string literal.  The source renders string constants with `fmt.Sprintf("%q", s)`
(the `fmt`/`strconv` implementation is not part of this repository snapshot);
per the spec, strings are "quoted and escaped" so that parsing the rendered
literal back yields the original string value.  The quote and backslash are
escaped, printable ASCII is kept verbatim, newline / tab / carriage return use
their short escapes, and every other code point uses a `\U` escape with eight
hexadecimal digits. -/
def escChar (c : Char) : List Char :=
  if c = '"' then ['\\', '"']
  else if c = '\\' then ['\\', '\\']
  else if isPrintableAscii c then [c]
  else if c = '\n' then ['\\', 'n']
  else if c = '\t' then ['\\', 't']
  else if c = '\r' then ['\\', 'r']
  else '\\' :: 'U' :: hex8 c.toNat

/-- Modelled from the spec: the double-quoted rendering of a string constant
(`fmt.Sprintf("%q", constant.StringVal(val))` in the source). -/
def quoteGoString (s : String) : String :=
  String.mk ('"' :: (s.data.flatMap escChar ++ ['"']))

/-- Reads one escaped character from the interior of a quoted literal,
returning the decoded character and the unconsumed remainder.  Inverse of
`escChar`. -/
def readEsc : List Char → Option (Char × List Char)
  | [] => none
  | c :: rest =>
    if c = '\\' then
      match rest with
      | [] => none
      | e :: rest2 =>
        if e = '"' then some ('"', rest2)
        else if e = '\\' then some ('\\', rest2)
        else if e = 'n' then some ('\n', rest2)
        else if e = 't' then some ('\t', rest2)
        else if e = 'r' then some ('\r', rest2)
        else if e = 'U' then
          match rest2 with
          | a :: b :: c3 :: d :: e5 :: f :: g :: h :: rest3 =>
            match hexVal8 a b c3 d e5 f g h with
            | some n => some (Char.ofNat n, rest3)
            | none => none
          | _ => none
        else none
    else if c = '"' then none
    else if isPrintableAscii c then some (c, rest)
    else none

/-- Fuel-indexed loop decoding the interior of a quoted literal up to and
including the closing quote. -/
def unqAux : Nat → List Char → Option (List Char)
  | 0, _ => none
  | fuel + 1, cs =>
    if cs = ['"'] then some []
    else
      match readEsc cs with
      | some (c, rest) =>
        match unqAux fuel rest with
        | some l => some (c :: l)
        | none => none
      | none => none

/-- Parses a double-quoted Go string literal back to the string value it
denotes. -/
def parseGoString (s : String) : Option String :=
  match s.data with
  | '"' :: rest => (unqAux rest.length rest).map fun l => String.mk l
  | _ => none

/-- Fuel-indexed decimal digit expansion, most significant digit first; any
fuel above the number itself is sufficient. -/
def natDigsAux : Nat → Nat → List Char
  | 0, _ => []
  | fuel + 1, n =>
    if n < 10 then [Char.ofNat (48 + n)]
    else natDigsAux fuel (n / 10) ++ [Char.ofNat (48 + n % 10)]

/-- Decimal digits of a natural number, most significant first. -/
def natDigs (n : Nat) : List Char :=
  natDigsAux (n + 1) n

/-- Canonical decimal rendering of an integer constant, as produced by
`val.String()` on an integer `go/constant` value. -/
def intRender (i : Int) : String :=
  match i with
  | Int.ofNat n => String.mk (natDigs n)
  | Int.negSucc m => String.mk ('-' :: natDigs (m + 1))

/-- Value of a decimal digit character. -/
def digitVal (c : Char) : Option Nat :=
  if 48 ≤ c.toNat ∧ c.toNat ≤ 57 then some (c.toNat - 48) else none

/-- Accumulating decimal parser over a list of digit characters. -/
def parseNatAux : List Char → Nat → Option Nat
  | [], acc => some acc
  | c :: cs, acc =>
    match digitVal c with
    | some d => parseNatAux cs (acc * 10 + d)
    | none => none

/-- Parses a nonempty list of decimal digit characters. -/
def parseNatChars (cs : List Char) : Option Nat :=
  match cs with
  | [] => none
  | _ => parseNatAux cs 0

/-- Parses the canonical decimal rendering of an integer (optional leading
minus sign). -/
def parseGoInt (s : String) : Option Int :=
  match s.data with
  | [] => none
  | c :: cs =>
    if c = '-' then (parseNatChars cs).map fun n => -(n : Int)
    else (parseNatChars (c :: cs)).map fun n => (n : Int)

/-- The kinds accepted by the `switch kind` in `allArgsConstant`. -/
def supportedKind : ConstKind → Bool
  | .string => true
  | .int => true
  | .float => true
  | .bool => true
  | _ => false

/-- The per-argument body of the loop in `allArgsConstant`
(`pure_eval.go` lines 148-177): literal check, supported-kind switch, then the
type-compatibility switch whose cases fire only when the parameter type is
string / integer / float / boolean. -/
def argEligible (arg : Node) (param : GoType) : Bool :=
  if arg.isLiteral = false then false
  else
    let kind := arg.val.kind
    if supportedKind kind = false then false
    else if param.IsString = true ∧ kind ≠ ConstKind.string then false
    else if param.IsInteger = true ∧ kind ≠ ConstKind.int then false
    else if param.IsFloat = true ∧ kind ≠ ConstKind.float then false
    else if param.IsBoolean = true ∧ kind ≠ ConstKind.bool then false
    else true

/-- Embeds `allArgsConstant(args, paramTypes)` (`pure_eval.go` lines 143-180). -/
def allArgsConstant (args : List Node) (paramTypes : List GoType) : Bool :=
  if args.length ≠ paramTypes.length then false
  else (args.zip paramTypes).all fun p => argEligible p.1 p.2

/-- Characters of the last slash-separated component of a path. -/
def afterLastSlash (l : List Char) : List Char :=
  ((l.reverse.takeWhile fun c => c ≠ '/').reverse)

/-- Modelled from the spec: `filepath.Base` (standard library, not part of this
repository snapshot) as used on an import path — the last slash-separated
component, which is the package qualifier used at the call site. -/
def baseName (p : String) : String :=
  String.mk (afterLastSlash p.data)

/-- The reference to the target function that `generateHelperProgram` reads:
`fn.Sym().Pkg.Path`, `fn.Sym().Name`, the declared parameter types
(`fn.Type().Params()`) and the static result type of the call. -/
structure FuncRef where
  pkgPath : String
  name : String
  params : List GoType
  resultType : GoType
deriving DecidableEq, Repr

/-- The argument-rendering switch inside `generateHelperProgram`
(`pure_eval.go` lines 68-82): strings via the quoted `%q` form, integers and
floats via `val.String()`, booleans via `%t`; any other kind aborts the whole
generation. -/
def renderConstArg : Val → Option String
  | .str s => some (quoteGoString s)
  | .intVal i => some (intRender i)
  | .floatVal r => some r
  | .boolVal b => some (if b then "true" else "false")
  | .complexVal _ => none
  | .unknown => none

/-- The argument loop of `generateHelperProgram`: renders each argument in
order, failing as a whole if any single argument has an unsupported kind. -/
def renderArgs : List Val → Option (List String)
  | [] => some []
  | v :: vs =>
    match renderConstArg v with
    | none => none
    | some r =>
      match renderArgs vs with
      | none => none
      | some rs => some (r :: rs)

/-- Embeds `generateHelperProgram(fn, args)` (`pure_eval.go` lines 63-94): renders the
arguments, then writes the helper program text exactly as the source's buffer
writes do. -/
def generateHelperProgram (fn : FuncRef) (args : List Node) : String :=
  match renderArgs (args.map Node.val) with
  | none => ""
  | some argExprs =>
    "package main\n\n" ++
    ("import \"" ++ fn.pkgPath ++ "\"\n") ++
    "import \"fmt\"\n\n" ++
    "func main() \x7b\n" ++
    ("\tresult := " ++ baseName fn.pkgPath ++ "." ++ fn.name ++ "(" ++
      String.intercalate ", " argExprs ++ ")\n") ++
    "\tfmt.Print(result)\n" ++
    "\x7d\n"

/-- Looks a key up in an environment list with last-binding-wins semantics, as
the OS environment passed to `exec.Command` behaves; absent keys read as the
empty string, as `os.Getenv` reports them. -/
def lookupEnv (env : List (String × String)) (k : String) : String :=
  match env.reverse.find? fun p => p.1 == k with
  | some p => p.2
  | none => ""

/-- The child-process environment built in `executeHelperProgram`
(`pure_eval.go` lines 124-131): the ambient environment, then a `GOROOT`
override when the build's GOROOT is known, then the recursion-guard flag. -/
def childEnv (ambient : List (String × String)) (goroot : String) :
    List (String × String) :=
  (ambient ++ (if goroot = "" then [] else [("GOROOT", goroot)])) ++
    [("GO_PURE_EVAL_HELPER", "1")]

/-- Outcome of one `cmd.Run()` of the toolchain on the helper program: whether
it completed with exit status zero (spawn failures and non-zero exits both
make `ok` false), and the captured output streams. -/
structure RunOutcome where
  ok : Bool
  stdout : String
  stderr : String
deriving DecidableEq, Repr

/-- Oracle for the external effects that one evaluation attempt can observe:
the result of `os.MkdirTemp` (`none` on error), whether `os.WriteFile`
succeeds, whether `os.Stat` finds the GOROOT-pinned `go` binary, the host
process environment, and the outcome of building-and-running a given helper
source under a given environment. -/
structure ExecWorld where
  mkdirTemp : Option String
  writeOk : Bool
  gorootBinOk : Bool
  environ : List (String × String)
  run : String → List (String × String) → RunOutcome

/-- Observable external actions of one evaluation attempt.  `setHostEnvEv`
would be a mutation of the host process's own environment; the embedded code
never emits it, which is the formal content of the guard-scoping claim. -/
inductive Event
  | genEv
  | mkdirTempEv (dir : String)
  | writeFileEv (path : String) (contents : String)
  | runProcEv (bin : String) (src : String) (env : List (String × String))
  | removeAllEv (dir : String)
  | setHostEnvEv (key val : String)
deriving DecidableEq, Repr

/-- Embeds `executeHelperProgram(source)` (`pure_eval.go` lines 96-141), returning the
captured stdout (empty string on any failure, as in the source) together with
the trace of external actions.  The `defer os.RemoveAll(tmpDir)` of the source
appears as a trailing `removeAllEv` on every path reached after the temporary
directory was created. -/
def executeHelperProgram (w : ExecWorld) (goroot : String) (source : String) :
    String × List Event :=
  match w.mkdirTemp with
  | none => ("", [])
  | some tmpDir =>
    let mainFile := tmpDir ++ "/main.go"
    if w.writeOk = false then
      ("", [.mkdirTempEv tmpDir, .writeFileEv mainFile source, .removeAllEv tmpDir])
    else
      let goBin :=
        if goroot ≠ "" then
          if w.gorootBinOk then goroot ++ "/bin/go" else "go"
        else "go"
      let env := childEnv w.environ goroot
      let out := w.run source env
      if out.ok = false then
        ("", [.mkdirTempEv tmpDir, .writeFileEv mainFile source,
              .runProcEv goBin source env, .removeAllEv tmpDir])
      else
        (out.stdout,
         [.mkdirTempEv tmpDir, .writeFileEv mainFile source,
          .runProcEv goBin source env, .removeAllEv tmpDir])

/-- A source position (`src.XPos` in the compiler). -/
abbrev Pos := Nat

/-- The literal node materialized on success: `ir.NewString(base.Pos, result)`
with `SetType(types.Types[types.TSTRING])` and `SetTypecheck(1)`. -/
structure EvalNode where
  strVal : String
  type : GoType
  typecheckFlag : Nat
  pos : Pos
deriving DecidableEq, Repr

/-- Embeds `evaluatePureFunctionAtCompileTime(fn, args)` (`pure_eval.go` lines 22-61):
recursion-guard check on the host environment, program synthesis, helper
execution, and materialization of the captured output as a typed string
literal.  `basePos` is the compiler's current `base.Pos`.  The returned trace
extends the executor's trace with a `genEv` marking that synthesis was
attempted. -/
def evaluatePureFunctionAtCompileTime (w : ExecWorld) (goroot : String)
    (basePos : Pos) (fn : FuncRef) (args : List Node) :
    Option EvalNode × List Event :=
  if lookupEnv w.environ "GO_PURE_EVAL_HELPER" ≠ "" then (none, [])
  else
    let programSource := generateHelperProgram fn args
    if programSource = "" then (none, [.genEv])
    else
      let r := executeHelperProgram w goroot programSource
      if r.1 = "" then (none, .genEv :: r.2)
      else (some ⟨r.1, GoType.tString, 1, basePos⟩, .genEv :: r.2)

/-- Following the spec's words for the claimed kind-match requirement: "every
argument is a literal (OLITERAL) of a kind in \x7bstring, integer, float,
boolean\x7d whose kind matches its declared parameter's kind exactly".  A
parameter whose type is outside the four classes has no kind a literal could
match. -/
def kindMatchesDecl : GoType → ConstKind → Bool
  | .tString, .string => true
  | .tInt, .int => true
  | .tFloat, .float => true
  | .tBool, .bool => true
  | _, _ => false

/-- Following the spec's words: the whole eligibility predicate as the claim
states it — arity equality, and every argument a literal of a supported kind
that matches its declared parameter's kind exactly. -/
def allArgsConstantSpecC3 (args : List Node) (paramTypes : List GoType) : Bool :=
  args.length == paramTypes.length &&
    (args.zip paramTypes).all fun p =>
      p.1.isLiteral && supportedKind p.1.val.kind && kindMatchesDecl p.2 p.1.val.kind

/-- Drops an expected prefix from a character list, failing if absent. -/
def dropPrefixCh : List Char → List Char → Option (List Char)
  | [], l => some l
  | _ :: _, [] => none
  | p :: ps, c :: cs => if c = p then dropPrefixCh ps cs else none

/-- Splits a character list at the first occurrence of `stop`, failing if
`stop` never occurs. -/
def takeUntil (stop : Char) : List Char → Option (List Char × List Char)
  | [] => none
  | c :: cs =>
    if c = stop then some ([], cs)
    else
      match takeUntil stop cs with
      | some (pre, post) => some (c :: pre, post)
      | none => none

/-- Grammar-level inverse of `generateHelperProgram`: accepts exactly the
texts of the form the synthesizer emits — a `package main` clause, an import
of one package path, an import of `fmt`, a `main` body consisting of one call
assignment and one `fmt.Print(result)` statement — and recovers the imported
package path and the call expression. -/
def parseHelperProgram (s : String) : Option (String × String) :=
  match dropPrefixCh "package main\n\nimport \"".data s.data with
  | none => none
  | some r1 =>
    match takeUntil '"' r1 with
    | none => none
    | some (pkg, r2) =>
      match dropPrefixCh "\nimport \"fmt\"\n\nfunc main() \x7b\n\tresult := ".data r2 with
      | none => none
      | some r3 =>
        match takeUntil '\n' r3 with
        | none => none
        | some (callExpr, r4) =>
          match dropPrefixCh "\tfmt.Print(result)\n\x7d\n".data r4 with
          | none => none
          | some r5 =>
            if r5 = [] then some (String.mk pkg, String.mk callExpr) else none

/-- Splits a character list at every newline. -/
def splitNL : List Char → List (List Char)
  | [] => [[]]
  | c :: rest =>
    let r := splitNL rest
    if c = '\n' then [] :: r
    else
      match r with
      | [] => [[c]]
      | l :: ls => (c :: l) :: ls

/-- Extracts the package path from a line of the form `import "X"`. -/
def importPathOfLine (l : List Char) : Option (List Char) :=
  match l with
  | 'i' :: 'm' :: 'p' :: 'o' :: 'r' :: 't' :: ' ' :: '"' :: rest =>
    match rest.reverse with
    | '"' :: body => some body.reverse
    | _ => none
  | _ => none

/-- All package paths imported by a program text, line by line. -/
def importPathsOf (s : String) : List (List Char) :=
  (splitNL s.data).filterMap importPathOfLine

/-- The `strings.ToLower` target used throughout the repository's tests. -/
def toLowerRef : FuncRef :=
  ⟨"strings", "ToLower", [GoType.tString], GoType.tString⟩

/-- A single constant string argument, `"HELLO WORLD"`. -/
def helloArgs : List Node := [Node.lit (Val.str "HELLO WORLD")]

/-- A world in which every external step succeeds and the helper program
prints `hello world`. -/
def okWorld : ExecWorld :=
  ⟨some "/tmp/go-pure-eval-1", true, true, [], fun _ _ => ⟨true, "hello world", ""⟩⟩

/-- A world in which the child process fails (non-zero exit). -/
def failWorld : ExecWorld :=
  ⟨some "/tmp/go-pure-eval-2", true, true, [], fun _ _ => ⟨false, "", "build error"⟩⟩

/-- A world whose host environment carries the recursion-guard flag. -/
def guardWorld : ExecWorld :=
  ⟨some "/tmp/go-pure-eval-4", true, true, [("GO_PURE_EVAL_HELPER", "1")],
    fun _ _ => ⟨true, "x", ""⟩⟩

/-- An integer-returning pure function target, as in the spec's
`addPure`-style scenario. -/
def itoaRef : FuncRef := ⟨"strconv", "Itoa", [GoType.tInt], GoType.tInt⟩

/-- A single constant integer argument, `42`. -/
def itoaArgs : List Node := [Node.lit (Val.intVal 42)]

/-- A world in which the helper program for the integer target succeeds and
prints `42`. -/
def itoaWorld : ExecWorld :=
  ⟨some "/tmp/go-pure-eval-3", true, true, [], fun _ _ => ⟨true, "42", ""⟩⟩


section QuoteLemmas

lemma hexVal_hexDigitChar_all : ∀ d : Nat, d < 16 → hexVal (hexDigitChar d) = some d := by
  decide

lemma char_toNat_lt (c : Char) : c.toNat < 4294967296 := by
  have h := c.valid
  simp only [Char.toNat]
  rcases h with h | h <;> omega

lemma hexVal8_hex8 (n : Nat) (h : n < 4294967296) :
    hexVal8 (hexDigitChar (n / 268435456 % 16)) (hexDigitChar (n / 16777216 % 16))
      (hexDigitChar (n / 1048576 % 16)) (hexDigitChar (n / 65536 % 16))
      (hexDigitChar (n / 4096 % 16)) (hexDigitChar (n / 256 % 16))
      (hexDigitChar (n / 16 % 16)) (hexDigitChar (n % 16)) = some n := by
  have h1 := hexVal_hexDigitChar_all (n / 268435456 % 16) (Nat.mod_lt _ (by omega))
  have h2 := hexVal_hexDigitChar_all (n / 16777216 % 16) (Nat.mod_lt _ (by omega))
  have h3 := hexVal_hexDigitChar_all (n / 1048576 % 16) (Nat.mod_lt _ (by omega))
  have h4 := hexVal_hexDigitChar_all (n / 65536 % 16) (Nat.mod_lt _ (by omega))
  have h5 := hexVal_hexDigitChar_all (n / 4096 % 16) (Nat.mod_lt _ (by omega))
  have h6 := hexVal_hexDigitChar_all (n / 256 % 16) (Nat.mod_lt _ (by omega))
  have h7 := hexVal_hexDigitChar_all (n / 16 % 16) (Nat.mod_lt _ (by omega))
  have h8 := hexVal_hexDigitChar_all (n % 16) (Nat.mod_lt _ (by omega))
  simp only [hexVal8, h1, h2, h3, h4, h5, h6, h7, h8, Option.bind_eq_bind, Option.some_bind,
    Option.some.injEq, pure]
  omega

lemma readEsc_escChar (c : Char) (t : List Char) :
    readEsc (escChar c ++ t) = some (c, t) := by
  by_cases hq : c = '"'
  · subst hq; simp [escChar, readEsc]
  by_cases hb : c = '\\'
  · subst hb; simp [escChar, readEsc]
  by_cases hp : isPrintableAscii c = true
  · simp [escChar, hq, hb, hp, readEsc]
  by_cases hn : c = '\n'
  · subst hn
    have h1 : isPrintableAscii '\n' = false := by decide
    simp [escChar, readEsc, h1]
  by_cases ht : c = '\t'
  · subst ht
    have h1 : isPrintableAscii '\t' = false := by decide
    simp [escChar, readEsc, h1]
  by_cases hr : c = '\r'
  · subst hr
    have h1 : isPrintableAscii '\r' = false := by decide
    simp [escChar, readEsc, h1]
  · have he : escChar c = '\\' :: 'U' :: hex8 c.toNat := by
      simp [escChar, hq, hb, hp, hn, ht, hr]
    rw [he]
    show readEsc ('\\' :: 'U' :: (hex8 c.toNat ++ t)) = some (c, t)
    simp only [readEsc, hex8, List.cons_append, List.nil_append]
    norm_num
    rw [hexVal8_hex8 c.toNat (char_toNat_lt c)]
    simp [Char.ofNat_toNat]

lemma escChar_length_pos (c : Char) : 0 < (escChar c).length := by
  unfold escChar
  split_ifs <;> simp [hex8]

lemma unqAux_flatMap : ∀ (s : List Char) (fuel : Nat), s.length < fuel →
    unqAux fuel (s.flatMap escChar ++ ['"']) = some s := by
  intro s
  induction s with
  | nil =>
    intro fuel h
    match fuel, h with
    | fuel + 1, _ => simp [unqAux]
  | cons c cs ih =>
    intro fuel h
    match fuel, h with
    | fuel + 1, h =>
      have hne : (c :: cs).flatMap escChar ++ ['"'] ≠ ['"'] := by
        intro heq
        have hl := congrArg List.length heq
        have hp := escChar_length_pos c
        simp [List.flatMap_cons] at hl
        omega
      have hsplit : (c :: cs).flatMap escChar ++ ['"'] =
          escChar c ++ (cs.flatMap escChar ++ ['"']) := by
        simp [List.flatMap_cons]
      rw [unqAux, if_neg hne, hsplit, readEsc_escChar]
      simp [ih fuel (Nat.lt_of_succ_lt_succ h)]

lemma length_le_flatMap_escChar (s : List Char) :
    s.length ≤ (s.flatMap escChar).length := by
  induction s with
  | nil => simp
  | cons c cs ih =>
    have hp := escChar_length_pos c
    simp only [List.flatMap_cons, List.length_append, List.length_cons]
    omega

lemma parseGoString_quoteGoString (s : String) :
    parseGoString (quoteGoString s) = some s := by
  have hlen : s.data.length < (s.data.flatMap escChar ++ ['"']).length := by
    have := length_le_flatMap_escChar s.data
    simp only [List.length_append, List.length_cons, List.length_nil]
    omega
  simp only [quoteGoString, parseGoString]
  rw [unqAux_flatMap s.data _ hlen]
  rfl

end QuoteLemmas

section IntLemmas

lemma digitVal_ofNat_all : ∀ d : Nat, d < 10 → digitVal (Char.ofNat (48 + d)) = some d := by
  decide

lemma parseNatAux_append (xs ys : List Char) : ∀ acc : Nat,
    parseNatAux (xs ++ ys) acc =
      match parseNatAux xs acc with
      | some a => parseNatAux ys a
      | none => none := by
  induction xs with
  | nil => intro acc; simp [parseNatAux]
  | cons c cs ih =>
    intro acc
    simp only [List.cons_append, parseNatAux]
    cases digitVal c with
    | none => rfl
    | some d => exact ih (acc * 10 + d)

lemma parseNatAux_natDigsAux : ∀ (fuel n : Nat), n < fuel → ∀ acc : Nat,
    parseNatAux (natDigsAux fuel n) acc = some (acc * 10 ^ (natDigsAux fuel n).length + n) := by
  intro fuel
  induction fuel with
  | zero => intro n hn; omega
  | succ fuel ih =>
    intro n hn acc
    by_cases h : n < 10
    · rw [natDigsAux, if_pos h]
      simp [parseNatAux, digitVal_ofNat_all n h]
    · rw [natDigsAux, if_neg h]
      have hdiv : n / 10 < fuel := by
        have := Nat.div_lt_self (show 0 < n by omega) (show 1 < 10 by omega)
        omega
      rw [parseNatAux_append]
      rw [ih (n / 10) hdiv acc]
      have hm : n % 10 < 10 := Nat.mod_lt _ (by omega)
      simp only [parseNatAux, digitVal_ofNat_all (n % 10) hm, List.length_append,
        List.length_cons, List.length_nil]
      congr 1
      have hdm : 10 * (n / 10) + n % 10 = n := Nat.div_add_mod n 10
      rw [pow_succ]
      set K := 10 ^ (natDigsAux fuel (n / 10)).length with hK
      set q := n / 10
      set r := n % 10
      calc (acc * K + q) * 10 + r = acc * (K * 10) + (10 * q + r) := by ring
        _ = acc * (K * 10) + n := by rw [hdm]

lemma parseNatAux_natDigs (n : Nat) : ∀ acc : Nat,
    parseNatAux (natDigs n) acc = some (acc * 10 ^ (natDigs n).length + n) :=
  parseNatAux_natDigsAux (n + 1) n (by omega)

lemma natDigs_ne_nil (n : Nat) : natDigs n ≠ [] := by
  rw [natDigs, natDigsAux]
  split_ifs <;> simp

lemma parseNatChars_natDigs (n : Nat) : parseNatChars (natDigs n) = some n := by
  have h := parseNatAux_natDigs n 0
  cases hd : natDigs n with
  | nil => exact absurd hd (natDigs_ne_nil n)
  | cons a l =>
    rw [hd] at h
    simpa [parseNatChars] using h

lemma natDigsAux_mem_digit : ∀ (fuel n : Nat), n < fuel →
    ∀ c ∈ natDigsAux fuel n, ∃ d, d < 10 ∧ c = Char.ofNat (48 + d) := by
  intro fuel
  induction fuel with
  | zero => intro n hn; omega
  | succ fuel ih =>
    intro n hn c hc
    by_cases h : n < 10
    · rw [natDigsAux, if_pos h] at hc
      simp at hc
      exact ⟨n, h, hc⟩
    · rw [natDigsAux, if_neg h] at hc
      have hdiv : n / 10 < fuel := by
        have := Nat.div_lt_self (show 0 < n by omega) (show 1 < 10 by omega)
        omega
      rcases List.mem_append.1 hc with hc | hc
      · exact ih (n / 10) hdiv c hc
      · simp at hc
        exact ⟨n % 10, Nat.mod_lt _ (by omega), hc⟩

lemma natDigs_mem_digit (n : Nat) : ∀ c ∈ natDigs n, ∃ d, d < 10 ∧ c = Char.ofNat (48 + d) :=
  natDigsAux_mem_digit (n + 1) n (by omega)

lemma digit_ne_minus : ∀ d : Nat, d < 10 → Char.ofNat (48 + d) ≠ '-' := by
  decide

lemma parseGoInt_intRender (i : Int) : parseGoInt (intRender i) = some i := by
  cases i with
  | ofNat n =>
    cases hd : natDigs n with
    | nil => exact absurd hd (natDigs_ne_nil n)
    | cons a l =>
      have ha : a ∈ natDigs n := by rw [hd]; exact List.mem_cons_self a l
      obtain ⟨d, hdlt, hda⟩ := natDigs_mem_digit n a ha
      have hne : a ≠ '-' := hda ▸ digit_ne_minus d hdlt
      have : parseGoInt (intRender (Int.ofNat n)) =
          (parseNatChars (a :: l)).map fun m => (m : Int) := by
        simp [parseGoInt, intRender, hd, hne]
      rw [this, ← hd, parseNatChars_natDigs]
      rfl
  | negSucc m =>
    have : parseGoInt (intRender (Int.negSucc m)) =
        (parseNatChars (natDigs (m + 1))).map fun n => -(n : Int) := by
      simp [parseGoInt, intRender]
    rw [this, parseNatChars_natDigs]
    simp [Int.negSucc_eq]

end IntLemmas

section EligibilityLemmas

lemma argEligible_iff (arg : Node) (param : GoType) :
    argEligible arg param = true ↔
      ∃ v, arg = Node.lit v ∧ supportedKind v.kind = true ∧
        (param.IsString = true → v.kind = ConstKind.string) ∧
        (param.IsInteger = true → v.kind = ConstKind.int) ∧
        (param.IsFloat = true → v.kind = ConstKind.float) ∧
        (param.IsBoolean = true → v.kind = ConstKind.bool) := by
  cases arg with
  | nonlit => simp [argEligible, Node.isLiteral]
  | lit v =>
    cases v <;> cases param <;>
      simp [argEligible, Node.isLiteral, Node.val, Val.kind, supportedKind,
        GoType.IsString, GoType.IsInteger, GoType.IsFloat, GoType.IsBoolean]

lemma allArgsConstant_iff (args : List Node) (ps : List GoType) :
    allArgsConstant args ps = true ↔
      args.length = ps.length ∧ ∀ p ∈ args.zip ps, argEligible p.1 p.2 = true := by
  unfold allArgsConstant
  split_ifs with h
  · simp [h]
  · have he : args.length = ps.length := by omega
    simp [he, List.all_eq_true]

lemma eligible_renderConstArg {a : Node} {q : GoType} (h : argEligible a q = true) :
    ∃ r, renderConstArg a.val = some r := by
  rcases (argEligible_iff a q).1 h with ⟨v, hv, hk, -⟩
  subst hv
  cases v <;> simp [Node.val, renderConstArg, Val.kind, supportedKind] at hk ⊢

lemma renderArgs_of_eligible : ∀ (args : List Node) (ps : List GoType),
    allArgsConstant args ps = true →
    ∃ rs, renderArgs (args.map Node.val) = some rs := by
  intro args
  induction args with
  | nil => intro ps _; exact ⟨[], rfl⟩
  | cons a as ih =>
    intro ps h
    rcases (allArgsConstant_iff (a :: as) ps).1 h with ⟨hlen, hall⟩
    cases ps with
    | nil => simp at hlen
    | cons q qs =>
      have h1 : argEligible a q = true := hall (a, q) (by simp [List.zip_cons_cons])
      have h2 : allArgsConstant as qs = true := by
        rw [allArgsConstant_iff]
        refine ⟨by simpa using hlen, fun p hp => hall p ?_⟩
        simp [List.zip_cons_cons]
        exact Or.inr hp
      rcases eligible_renderConstArg h1 with ⟨r, hr⟩
      rcases ih qs h2 with ⟨rs, hrs⟩
      exact ⟨r :: rs, by simp [renderArgs, hr, hrs]⟩

end EligibilityLemmas

section ProgramShape

lemma dropPrefixCh_append : ∀ (p l : List Char), dropPrefixCh p (p ++ l) = some l := by
  intro p
  induction p with
  | nil => intro l; rfl
  | cons c cs ih => intro l; simp [dropPrefixCh, ih]

lemma takeUntil_append (stop : Char) (a b : List Char) (ha : stop ∉ a) :
    takeUntil stop (a ++ stop :: b) = some (a, b) := by
  induction a with
  | nil => simp [takeUntil]
  | cons c cs ih =>
    have hc : c ≠ stop := fun h => ha (h ▸ List.mem_cons_self c cs)
    have hcs : stop ∉ cs := fun h => ha (List.mem_cons_of_mem _ h)
    simp [takeUntil, hc, Ne.symm hc, ih hcs]

lemma mem_afterLastSlash {c : Char} {l : List Char} (h : c ∈ afterLastSlash l) : c ∈ l := by
  simp only [afterLastSlash, List.mem_reverse] at h
  exact List.mem_reverse.1 (List.takeWhile_subset _ h)

lemma data_generateHelperProgram (fn : FuncRef) (args : List Node) (rs : List String)
    (hr : renderArgs (args.map Node.val) = some rs) :
    (generateHelperProgram fn args).data =
      ("package main\n\nimport \"" : String).data ++
        (fn.pkgPath.data ++
          ('"' :: (("\nimport \"fmt\"\n\nfunc main() \x7b\n\tresult := " : String).data ++
            ((baseName fn.pkgPath ++ "." ++ fn.name ++ "(" ++
                String.intercalate ", " rs ++ ")").data ++
              ('\n' :: ("\tfmt.Print(result)\n\x7d\n" : String).data))))) := by
  have g1 : ("package main\n\nimport \"" : String).data =
      ("package main\n\n" : String).data ++ ("import \"" : String).data := rfl
  have g2 : ("\"\n" : String).data = '"' :: ("\n" : String).data := rfl
  have g3 : ("\nimport \"fmt\"\n\nfunc main() \x7b\n\tresult := " : String).data =
      ("\n" : String).data ++ (("import \"fmt\"\n\n" : String).data ++
        (("func main() \x7b\n" : String).data ++ ("\tresult := " : String).data)) := rfl
  have g4 : (")\n" : String).data = (")" : String).data ++ ("\n" : String).data := rfl
  have g5 : ("\n" : String).data = ['\n'] := rfl
  rw [generateHelperProgram, hr]
  simp only [g1, g3, String.data_append, g2, g4, g5, List.append_assoc, List.cons_append,
    List.nil_append]

lemma generateHelperProgram_ne_empty (fn : FuncRef) (args : List Node) (rs : List String)
    (hr : renderArgs (args.map Node.val) = some rs) :
    generateHelperProgram fn args ≠ "" := by
  intro h
  have hd := congrArg String.data h
  rw [data_generateHelperProgram fn args rs hr] at hd
  have g0 : ("package main\n\nimport \"" : String).data =
      'p' :: ("ackage main\n\nimport \"" : String).data := rfl
  rw [g0] at hd
  simp at hd

lemma parseHelperProgram_generateHelperProgram (fn : FuncRef) (args : List Node)
    (rs : List String) (hr : renderArgs (args.map Node.val) = some rs)
    (hq : '"' ∉ fn.pkgPath.data)
    (hn1 : '\n' ∉ fn.pkgPath.data) (hn2 : '\n' ∉ fn.name.data)
    (hn3 : '\n' ∉ (String.intercalate ", " rs).data) :
    parseHelperProgram (generateHelperProgram fn args) =
      some (fn.pkgPath,
        baseName fn.pkgPath ++ "." ++ fn.name ++ "(" ++ String.intercalate ", " rs ++ ")") := by
  have hcall : '\n' ∉ (baseName fn.pkgPath ++ "." ++ fn.name ++ "(" ++
      String.intercalate ", " rs ++ ")").data := by
    intro h
    simp only [String.data_append, List.mem_append] at h
    have h1 : ('\n' : Char) ∉ (baseName fn.pkgPath).data := fun hm =>
      hn1 (mem_afterLastSlash hm)
    have h2 : ('\n' : Char) ∉ ("." : String).data := by decide
    have h3 : ('\n' : Char) ∉ ("(" : String).data := by decide
    have h4 : ('\n' : Char) ∉ (")" : String).data := by decide
    tauto
  have t1 : takeUntil '"'
      (fn.pkgPath.data ++ '"' ::
        (("\nimport \"fmt\"\n\nfunc main() \x7b\n\tresult := " : String).data ++
          ((baseName fn.pkgPath ++ "." ++ fn.name ++ "(" ++
              String.intercalate ", " rs ++ ")").data ++
            ('\n' :: ("\tfmt.Print(result)\n\x7d\n" : String).data)))) =
      some (fn.pkgPath.data,
        ("\nimport \"fmt\"\n\nfunc main() \x7b\n\tresult := " : String).data ++
          ((baseName fn.pkgPath ++ "." ++ fn.name ++ "(" ++
              String.intercalate ", " rs ++ ")").data ++
            ('\n' :: ("\tfmt.Print(result)\n\x7d\n" : String).data))) :=
    takeUntil_append _ _ _ hq
  have t2 : takeUntil '\n'
      ((baseName fn.pkgPath ++ "." ++ fn.name ++ "(" ++
          String.intercalate ", " rs ++ ")").data ++
        ('\n' :: ("\tfmt.Print(result)\n\x7d\n" : String).data)) =
      some ((baseName fn.pkgPath ++ "." ++ fn.name ++ "(" ++
          String.intercalate ", " rs ++ ")").data,
        ("\tfmt.Print(result)\n\x7d\n" : String).data) :=
    takeUntil_append _ _ _ hcall
  have t3 : dropPrefixCh ("\tfmt.Print(result)\n\x7d\n" : String).data
      ("\tfmt.Print(result)\n\x7d\n" : String).data = some [] := by
    have h := dropPrefixCh_append ("\tfmt.Print(result)\n\x7d\n" : String).data []
    simpa using h
  rw [parseHelperProgram, data_generateHelperProgram fn args rs hr, dropPrefixCh_append]
  simp only [t1, dropPrefixCh_append, t2, t3]
  simp only [reduceIte, Option.some.injEq, Prod.mk.injEq]

end ProgramShape

section ExecLemmas

lemma lookupEnv_childEnv (ambient : List (String × String)) (goroot : String) :
    lookupEnv (childEnv ambient goroot) "GO_PURE_EVAL_HELPER" = "1" := by
  simp [childEnv, lookupEnv, List.reverse_append]

lemma executeHelperProgram_eq (w : ExecWorld) (goroot src d : String)
    (hmk : w.mkdirTemp = some d) (hw : w.writeOk = true) :
    executeHelperProgram w goroot src =
      ((if (w.run src (childEnv w.environ goroot)).ok then
          (w.run src (childEnv w.environ goroot)).stdout
        else ""),
       [Event.mkdirTempEv d, Event.writeFileEv (d ++ "/main.go") src,
        Event.runProcEv
          (if goroot ≠ "" then (if w.gorootBinOk then goroot ++ "/bin/go" else "go") else "go")
          src (childEnv w.environ goroot),
        Event.removeAllEv d]) := by
  cases hok : (w.run src (childEnv w.environ goroot)).ok <;>
    simp [executeHelperProgram, hmk, hw, hok]

lemma evaluate_guard_off (w : ExecWorld) (goroot : String) (basePos : Pos)
    (fn : FuncRef) (args : List Node)
    (hguard : lookupEnv w.environ "GO_PURE_EVAL_HELPER" = "")
    (hsrc : generateHelperProgram fn args ≠ "") :
    evaluatePureFunctionAtCompileTime w goroot basePos fn args =
      (if (executeHelperProgram w goroot (generateHelperProgram fn args)).1 = ""
        then none
        else some ⟨(executeHelperProgram w goroot (generateHelperProgram fn args)).1,
          GoType.tString, 1, basePos⟩,
       Event.genEv :: (executeHelperProgram w goroot (generateHelperProgram fn args)).2) := by
  rw [evaluatePureFunctionAtCompileTime]
  rw [if_neg (by simp [hguard])]
  simp only [if_neg hsrc]
  split_ifs <;> simp

end ExecLemmas

section MoreLemmas

lemma renderArgs_none : ∀ (vs : List Val) (v : Val), v ∈ vs → renderConstArg v = none →
    renderArgs vs = none := by
  intro vs
  induction vs with
  | nil => intro v hv; simp at hv
  | cons u us ih =>
    intro v hv hnone
    rcases List.mem_cons.1 hv with h | h
    · subst h
      simp [renderArgs, hnone]
    · rw [renderArgs]
      cases hu : renderConstArg u with
      | none => rfl
      | some r => rw [ih v h hnone]

lemma argEligible_iff_classes (a : Node) (q : GoType) :
    argEligible a q = true ↔
      a.isLiteral = true ∧ supportedKind a.val.kind = true ∧
        ((q = GoType.tString ∨ q = GoType.tInt ∨ q = GoType.tFloat ∨ q = GoType.tBool) →
          kindMatchesDecl q a.val.kind = true) := by
  cases a with
  | nonlit => simp [argEligible, Node.isLiteral]
  | lit v =>
    cases v <;> cases q <;>
      simp [argEligible, Node.isLiteral, Node.val, Val.kind, supportedKind,
        GoType.IsString, GoType.IsInteger, GoType.IsFloat, GoType.IsBoolean, kindMatchesDecl]

end MoreLemmas

section Claims

/-- C3 counterexample: `allArgsConstant` accepts a literal string argument
against a parameter whose declared type is outside the four kind classes, even
though the literal's kind does not match the declared parameter's kind, so the
claimed "if and only if" fails in its only-if direction. -/
theorem c3_counterexample :
    allArgsConstant [Node.lit (Val.str "x")] [GoType.tOther] = true ∧
    allArgsConstantSpecC3 [Node.lit (Val.str "x")] [GoType.tOther] = false ∧
    kindMatchesDecl GoType.tOther (Val.str "x").kind = false := by
  decide

/-- C3 (amended): `allArgsConstant(args, paramTypes)` returns true iff the
argument count equals the parameter count and every argument is a literal
(OLITERAL) of a kind in \x7bstring, integer, float, boolean\x7d, and,
whenever the declared parameter's type is itself a string / integer / float /
boolean type, the literal's kind matches it exactly; parameters of any other
type impose no kind constraint.  Any violation yields false (disqualification,
never an error). -/
theorem c3_amended_eligibility (args : List Node) (paramTypes : List GoType) :
    allArgsConstant args paramTypes = true ↔
      args.length = paramTypes.length ∧
        ∀ p ∈ args.zip paramTypes,
          p.1.isLiteral = true ∧ supportedKind p.1.val.kind = true ∧
            ((p.2 = GoType.tString ∨ p.2 = GoType.tInt ∨ p.2 = GoType.tFloat ∨
                p.2 = GoType.tBool) →
              kindMatchesDecl p.2 p.1.val.kind = true) := by
  rw [allArgsConstant_iff]
  constructor
  · rintro ⟨hl, hall⟩
    exact ⟨hl, fun p hp => (argEligible_iff_classes p.1 p.2).1 (hall p hp)⟩
  · rintro ⟨hl, hall⟩
    exact ⟨hl, fun p hp => (argEligible_iff_classes p.1 p.2).2 (hall p hp)⟩

/-- C10: the kind-compatibility check in `allArgsConstant` constrains only
parameters whose declared type is string, integer, float, or boolean; when all
arguments are literals of supported kinds and every parameter of those four
classes matches, `allArgsConstant` returns true even when some parameter's
type is none of the four classes, so such calls can reach program synthesis
and execution. -/
theorem c10_kind_check_scope (args : List Node) (paramTypes : List GoType)
    (hlen : args.length = paramTypes.length)
    (hall : ∀ p ∈ args.zip paramTypes,
      p.1.isLiteral = true ∧ supportedKind p.1.val.kind = true ∧
        ((p.2 = GoType.tString ∨ p.2 = GoType.tInt ∨ p.2 = GoType.tFloat ∨
            p.2 = GoType.tBool) →
          kindMatchesDecl p.2 p.1.val.kind = true)) :
    allArgsConstant args paramTypes = true := by
  rw [allArgsConstant_iff]
  exact ⟨hlen, fun p hp => (argEligible_iff_classes p.1 p.2).2 (hall p hp)⟩

/-- Witness for C10: a call with one string literal against a non-basic
parameter type and one integer literal against an integer parameter is
accepted. -/
theorem c10_kind_check_scope_witness :
    allArgsConstant [Node.lit (Val.str "x"), Node.lit (Val.intVal 3)]
      [GoType.tOther, GoType.tInt] = true :=
  c10_kind_check_scope [Node.lit (Val.str "x"), Node.lit (Val.intVal 3)]
    [GoType.tOther, GoType.tInt] (by decide) (by decide)

/-- C7: every supported constant argument is rendered in source-literal syntax
appropriate to its kind — strings are quoted and escaped such that parsing the
rendered literal back yields the original string value, integers use their
canonical decimal form (parsing back yields the original integer), floats use
their canonical textual form (`val.String()`), booleans render as the keywords
`true`/`false` — and any argument of an unsupported kind makes
`generateHelperProgram` return the empty string instead of a program. -/
theorem c7_argument_rendering :
    (∀ s : String, renderConstArg (Val.str s) = some (quoteGoString s) ∧
      parseGoString (quoteGoString s) = some s) ∧
    (∀ i : Int, renderConstArg (Val.intVal i) = some (intRender i) ∧
      parseGoInt (intRender i) = some i) ∧
    (∀ r : String, renderConstArg (Val.floatVal r) = some r) ∧
    (renderConstArg (Val.boolVal true) = some "true" ∧
      renderConstArg (Val.boolVal false) = some "false") ∧
    (∀ (fn : FuncRef) (args : List Node) (a : Node), a ∈ args →
      renderConstArg a.val = none → generateHelperProgram fn args = "") := by
  refine ⟨fun s => ⟨rfl, parseGoString_quoteGoString s⟩,
    fun i => ⟨rfl, parseGoInt_intRender i⟩, fun r => rfl, ⟨rfl, rfl⟩, ?_⟩
  intro fn args a ha hnone
  have h : renderArgs (args.map Node.val) = none :=
    renderArgs_none (args.map Node.val) a.val (List.mem_map_of_mem Node.val ha) hnone
  simp [generateHelperProgram, h]

/-- Witness for C7: the string round-trip at `"HELLO WORLD"`, the integer
round-trip at `-42`, and an unsupported (complex) argument aborting
generation. -/
theorem c7_argument_rendering_witness :
    parseGoString (quoteGoString "HELLO WORLD") = some "HELLO WORLD" ∧
    parseGoInt (intRender (-42)) = some (-42) ∧
    generateHelperProgram toLowerRef [Node.lit (Val.complexVal "(0 + 1i)")] = "" :=
  ⟨(c7_argument_rendering.1 "HELLO WORLD").2,
   (c7_argument_rendering.2.1 (-42)).2,
   c7_argument_rendering.2.2.2.2 toLowerRef [Node.lit (Val.complexVal "(0 + 1i)")]
     (Node.lit (Val.complexVal "(0 + 1i)")) (List.mem_singleton.2 rfl) rfl⟩

/-- C2: whenever the recursion-guard variable `GO_PURE_EVAL_HELPER` reads as a
non-empty value in the current process, `evaluatePureFunctionAtCompileTime`
returns `nil` immediately with an empty action trace — no program is
synthesized and no process is run; consequently, a process whose environment
is the one `executeHelperProgram` constructs for a synthesized program (which
carries `GO_PURE_EVAL_HELPER=1`) never performs a nested compile-time
evaluation. -/
theorem c2_recursion_guard :
    (∀ (w : ExecWorld) (goroot : String) (basePos : Pos) (fn : FuncRef) (args : List Node),
      lookupEnv w.environ "GO_PURE_EVAL_HELPER" ≠ "" →
      evaluatePureFunctionAtCompileTime w goroot basePos fn args = (none, [])) ∧
    (∀ (w : ExecWorld) (goroot goroot2 : String) (basePos : Pos) (fn : FuncRef)
      (args : List Node) (ambient : List (String × String)),
      w.environ = childEnv ambient goroot2 →
      evaluatePureFunctionAtCompileTime w goroot basePos fn args = (none, [])) := by
  have part1 : ∀ (w : ExecWorld) (goroot : String) (basePos : Pos) (fn : FuncRef)
      (args : List Node), lookupEnv w.environ "GO_PURE_EVAL_HELPER" ≠ "" →
      evaluatePureFunctionAtCompileTime w goroot basePos fn args = (none, []) := by
    intro w goroot basePos fn args h
    simp [evaluatePureFunctionAtCompileTime, h]
  refine ⟨part1, ?_⟩
  intro w goroot goroot2 basePos fn args ambient h
  refine part1 w goroot basePos fn args ?_
  rw [h, lookupEnv_childEnv]
  simp

/-- Witness for C2: a host carrying the guard short-circuits, and so does a
host whose environment is exactly a child environment built by the executor. -/
theorem c2_recursion_guard_witness :
    evaluatePureFunctionAtCompileTime guardWorld "" 0 toLowerRef helloArgs = (none, []) ∧
    evaluatePureFunctionAtCompileTime
      ⟨some "/tmp/go-pure-eval-5", true, true, childEnv [] "", fun _ _ => ⟨true, "x", ""⟩⟩
      "" 0 toLowerRef helloArgs = (none, []) :=
  ⟨c2_recursion_guard.1 guardWorld "" 0 toLowerRef helloArgs (by decide),
   c2_recursion_guard.2
     ⟨some "/tmp/go-pure-eval-5", true, true, childEnv [] "", fun _ _ => ⟨true, "x", ""⟩⟩
     "" "" 0 toLowerRef helloArgs [] rfl⟩

/-- C4: if the helper program cannot be generated, or the scratch directory
cannot be created, or the source file cannot be written, or the child process
fails to spawn or exits with non-zero status, or the captured standard output
is empty, then `evaluatePureFunctionAtCompileTime` returns `nil` (so the
caller leaves the original call untouched); empty captured output counts as
failure rather than as a legitimate empty-string result, and no failure is
reported as an error. -/
theorem c4_failure_fallback (w : ExecWorld) (goroot : String) (basePos : Pos)
    (fn : FuncRef) (args : List Node)
    (h : generateHelperProgram fn args = "" ∨ w.mkdirTemp = none ∨ w.writeOk = false ∨
      (w.run (generateHelperProgram fn args) (childEnv w.environ goroot)).ok = false ∨
      (w.run (generateHelperProgram fn args) (childEnv w.environ goroot)).stdout = "") :
    (evaluatePureFunctionAtCompileTime w goroot basePos fn args).1 = none := by
  by_cases hg : lookupEnv w.environ "GO_PURE_EVAL_HELPER" ≠ ""
  · simp [evaluatePureFunctionAtCompileTime, hg]
  push_neg at hg
  by_cases hsrc : generateHelperProgram fn args = ""
  · simp [evaluatePureFunctionAtCompileTime, hg, hsrc]
  rw [evaluate_guard_off w goroot basePos fn args hg hsrc]
  rcases h with h | h | h | h | h
  · exact absurd h hsrc
  · simp [executeHelperProgram, h]
  · cases hmk : w.mkdirTemp with
    | none => simp [executeHelperProgram, hmk]
    | some d => simp [executeHelperProgram, hmk, h]
  · cases hmk : w.mkdirTemp with
    | none => simp [executeHelperProgram, hmk]
    | some d =>
      cases hw : w.writeOk with
      | false => simp [executeHelperProgram, hmk, hw]
      | true =>
        rw [executeHelperProgram_eq w goroot _ d hmk hw]
        simp [h]
  · cases hmk : w.mkdirTemp with
    | none => simp [executeHelperProgram, hmk]
    | some d =>
      cases hw : w.writeOk with
      | false => simp [executeHelperProgram, hmk, hw]
      | true =>
        rw [executeHelperProgram_eq w goroot _ d hmk hw]
        simp [h]

/-- Witness for C4: a run failure (non-zero exit) yields `nil`. -/
theorem c4_failure_fallback_witness :
    (evaluatePureFunctionAtCompileTime failWorld "" 0 toLowerRef helloArgs).1 = none :=
  c4_failure_fallback failWorld "" 0 toLowerRef helloArgs
    (Or.inr (Or.inr (Or.inr (Or.inl rfl))))

/-- C5: whenever an invocation of `executeHelperProgram` succeeds in creating
a scratch temporary directory, the directory's removal is the last external
action of that invocation on every path (write failure, run failure, or
success); consequently, after any attempt of
`evaluatePureFunctionAtCompileTime` that created a scratch directory, the
trace ends with the removal of that directory. -/
theorem c5_workspace_cleanup :
    (∀ (w : ExecWorld) (goroot src d : String), w.mkdirTemp = some d →
      (executeHelperProgram w goroot src).2.getLast? = some (Event.removeAllEv d)) ∧
    (∀ (w : ExecWorld) (goroot : String) (basePos : Pos) (fn : FuncRef) (args : List Node)
      (d : String),
      Event.mkdirTempEv d ∈ (evaluatePureFunctionAtCompileTime w goroot basePos fn args).2 →
      (evaluatePureFunctionAtCompileTime w goroot basePos fn args).2.getLast? =
        some (Event.removeAllEv d)) := by
  have part1 : ∀ (w : ExecWorld) (goroot src d : String), w.mkdirTemp = some d →
      (executeHelperProgram w goroot src).2.getLast? = some (Event.removeAllEv d) := by
    intro w goroot src d hmk
    cases hw : w.writeOk with
    | false => simp [executeHelperProgram, hmk, hw]
    | true =>
      rw [executeHelperProgram_eq w goroot src d hmk hw]
      simp
  have mem_mk : ∀ (w : ExecWorld) (goroot src d : String),
      Event.mkdirTempEv d ∈ (executeHelperProgram w goroot src).2 →
      w.mkdirTemp = some d := by
    intro w goroot src d hm
    cases hmk : w.mkdirTemp with
    | none => simp [executeHelperProgram, hmk] at hm
    | some d2 =>
      cases hw : w.writeOk with
      | false =>
        simp only [executeHelperProgram, hmk, hw] at hm
        simp at hm
        rw [hm]
      | true =>
        rw [executeHelperProgram_eq w goroot src d2 hmk hw] at hm
        simp at hm
        rw [hm]
  refine ⟨part1, ?_⟩
  intro w goroot basePos fn args d hm
  by_cases hg : lookupEnv w.environ "GO_PURE_EVAL_HELPER" ≠ ""
  · simp [evaluatePureFunctionAtCompileTime, hg] at hm
  push_neg at hg
  by_cases hsrc : generateHelperProgram fn args = ""
  · simp [evaluatePureFunctionAtCompileTime, hg, hsrc] at hm
  rw [evaluate_guard_off w goroot basePos fn args hg hsrc] at hm ⊢
  simp only [List.mem_cons] at hm
  rcases hm with hm | hm
  · exact absurd hm.symm (by simp)
  · have hmk := mem_mk w goroot (generateHelperProgram fn args) d hm
    have hl := part1 w goroot (generateHelperProgram fn args) d hmk
    cases htr : (executeHelperProgram w goroot (generateHelperProgram fn args)).2 with
    | nil => rw [htr] at hl; simp at hl
    | cons e es =>
      rw [htr] at hl
      simpa [htr] using hl

/-- Witness for C5: on a successful run, and on the corresponding full
evaluation, the trace ends with the removal of the scratch directory. -/
theorem c5_workspace_cleanup_witness :
    (executeHelperProgram okWorld "" "p").2.getLast? =
      some (Event.removeAllEv "/tmp/go-pure-eval-1") ∧
    (evaluatePureFunctionAtCompileTime okWorld "" 3 toLowerRef helloArgs).2.getLast? =
      some (Event.removeAllEv "/tmp/go-pure-eval-1") :=
  ⟨c5_workspace_cleanup.1 okWorld "" "p" "/tmp/go-pure-eval-1" rfl,
   c5_workspace_cleanup.2 okWorld "" 3 toLowerRef helloArgs "/tmp/go-pure-eval-1"
     (by decide)⟩

/-- C9: the recursion-guard signal travels only in the environment list
explicitly constructed for the child process — the ambient environment, a
`GOROOT` override when known, and `GO_PURE_EVAL_HELPER=1` appended last — the
process invocation receives exactly that list, no action of the executor or
the coordinator ever mutates the host process environment, and the guard reads
as `1` in the child environment regardless of the ambient contents. -/
theorem c9_guard_scoping :
    (∀ (w : ExecWorld) (goroot src d : String), w.mkdirTemp = some d → w.writeOk = true →
      Event.runProcEv
        (if goroot ≠ "" then (if w.gorootBinOk then goroot ++ "/bin/go" else "go") else "go")
        src (childEnv w.environ goroot) ∈ (executeHelperProgram w goroot src).2) ∧
    (∀ (w : ExecWorld) (goroot src k v : String),
      Event.setHostEnvEv k v ∉ (executeHelperProgram w goroot src).2) ∧
    (∀ (w : ExecWorld) (goroot : String) (basePos : Pos) (fn : FuncRef) (args : List Node)
      (k v : String),
      Event.setHostEnvEv k v ∉ (evaluatePureFunctionAtCompileTime w goroot basePos fn args).2) ∧
    (∀ (ambient : List (String × String)) (goroot : String),
      lookupEnv (childEnv ambient goroot) "GO_PURE_EVAL_HELPER" = "1") := by
  have part2 : ∀ (w : ExecWorld) (goroot src k v : String),
      Event.setHostEnvEv k v ∉ (executeHelperProgram w goroot src).2 := by
    intro w goroot src k v
    cases hmk : w.mkdirTemp with
    | none => simp [executeHelperProgram, hmk]
    | some d =>
      cases hw : w.writeOk with
      | false => simp [executeHelperProgram, hmk, hw]
      | true =>
        rw [executeHelperProgram_eq w goroot src d hmk hw]
        simp
  refine ⟨?_, part2, ?_, lookupEnv_childEnv⟩
  · intro w goroot src d hmk hw
    rw [executeHelperProgram_eq w goroot src d hmk hw]
    simp
  · intro w goroot basePos fn args k v
    by_cases hg : lookupEnv w.environ "GO_PURE_EVAL_HELPER" ≠ ""
    · simp [evaluatePureFunctionAtCompileTime, hg]
    push_neg at hg
    by_cases hsrc : generateHelperProgram fn args = ""
    · simp [evaluatePureFunctionAtCompileTime, hg, hsrc]
    rw [evaluate_guard_off w goroot basePos fn args hg hsrc]
    simp only [List.mem_cons, not_or]
    exact ⟨by simp, part2 w goroot (generateHelperProgram fn args) k v⟩

/-- Witness for C9: the successful concrete run invokes the process with the
explicitly constructed child environment. -/
theorem c9_guard_scoping_witness :
    Event.runProcEv "go" "p" (childEnv [] "") ∈ (executeHelperProgram okWorld "" "p").2 := by
  have h := c9_guard_scoping.1 okWorld "" "p" "/tmp/go-pure-eval-1" rfl rfl
  simpa using h

/-- C1: round-trip fidelity.  For a pure function with eligible constant
arguments, when the recursion guard is off, the scratch steps succeed, and the
isolated execution of the synthesized program faithfully prints the value `f`
of the direct invocation of the function on those arguments, then any constant
materialized by `evaluatePureFunctionAtCompileTime` is exactly that value, and
when the value is nonempty the evaluator does materialize it (e.g., lowercase
folding of `"HELLO WORLD"` materializes exactly `"hello world"`). -/
theorem c1_round_trip_fidelity (w : ExecWorld) (goroot : String) (basePos : Pos)
    (fn : FuncRef) (args : List Node) (d : String) (f : List Node → String)
    (hguard : lookupEnv w.environ "GO_PURE_EVAL_HELPER" = "")
    (helig : allArgsConstant args fn.params = true)
    (hmk : w.mkdirTemp = some d) (hw : w.writeOk = true)
    (hok : (w.run (generateHelperProgram fn args) (childEnv w.environ goroot)).ok = true)
    (hfaithful :
      (w.run (generateHelperProgram fn args) (childEnv w.environ goroot)).stdout = f args) :
    (∀ nd, (evaluatePureFunctionAtCompileTime w goroot basePos fn args).1 = some nd →
      nd.strVal = f args) ∧
    (f args ≠ "" →
      (evaluatePureFunctionAtCompileTime w goroot basePos fn args).1 =
        some ⟨f args, GoType.tString, 1, basePos⟩) := by
  rcases renderArgs_of_eligible args fn.params helig with ⟨rs, hrs⟩
  have hsrc := generateHelperProgram_ne_empty fn args rs hrs
  have hexec : (executeHelperProgram w goroot (generateHelperProgram fn args)).1 = f args := by
    rw [executeHelperProgram_eq w goroot _ d hmk hw]
    simp [hok, hfaithful]
  have heval := evaluate_guard_off w goroot basePos fn args hguard hsrc
  constructor
  · intro nd h
    rw [heval] at h
    simp only [] at h
    by_cases hz : (executeHelperProgram w goroot (generateHelperProgram fn args)).1 = ""
    · rw [if_pos hz] at h
      simp at h
    · rw [if_neg hz] at h
      have hnd : nd = ⟨(executeHelperProgram w goroot (generateHelperProgram fn args)).1,
          GoType.tString, 1, basePos⟩ := by
        injection h with h2
        exact h2.symm
      rw [hnd]
      exact hexec
  · intro hne
    rw [heval]
    simp only []
    rw [if_neg (by rw [hexec]; exact hne), hexec]

/-- Witness for C1: the concrete lowercase-folding scenario materializes
exactly `"hello world"`. -/
theorem c1_round_trip_fidelity_witness :
    (evaluatePureFunctionAtCompileTime okWorld "" 3 toLowerRef helloArgs).1 =
      some ⟨"hello world", GoType.tString, 1, 3⟩ :=
  (c1_round_trip_fidelity okWorld "" 3 toLowerRef helloArgs "/tmp/go-pure-eval-1"
    (fun _ => "hello world") rfl (by decide) rfl rfl rfl rfl).2 (by decide)

/-- C6 counterexample: the synthesized program does not import *exactly* the
target function's owning module — it imports the owning module and also the
`fmt` package used for printing the result. -/
theorem c6_counterexample :
    importPathsOf (generateHelperProgram toLowerRef helloArgs) =
      ["strings".data, "fmt".data] ∧
    ¬ importPathsOf (generateHelperProgram toLowerRef helloArgs) =
      [toLowerRef.pkgPath.data] := by
  decide

/-- C6 (amended): for every eligible call site, `generateHelperProgram` emits
a program matching the fixed helper grammar: a `package main` clause, one
inclusion of exactly the target function's owning module followed by one
inclusion of the `fmt` printing package, and an entry point whose body invokes
`module.Function(arg1, arg2, ...)` (the module qualifier being the last path
component) and writes the raw result to standard output via a bare
`fmt.Print(result)` with no additional formatting, decoration, or trailing
structure. -/
theorem c6_amended_program_shape (fn : FuncRef) (args : List Node) (rs : List String)
    (hr : renderArgs (args.map Node.val) = some rs)
    (hq : '"' ∉ fn.pkgPath.data) (hn1 : '\n' ∉ fn.pkgPath.data)
    (hn2 : '\n' ∉ fn.name.data) (hn3 : '\n' ∉ (String.intercalate ", " rs).data) :
    parseHelperProgram (generateHelperProgram fn args) =
      some (fn.pkgPath,
        baseName fn.pkgPath ++ "." ++ fn.name ++ "(" ++
          String.intercalate ", " rs ++ ")") :=
  parseHelperProgram_generateHelperProgram fn args rs hr hq hn1 hn2 hn3

/-- Witness for C6 (amended): the concrete lowercase-folding call site. -/
theorem c6_amended_program_shape_witness :
    parseHelperProgram (generateHelperProgram toLowerRef helloArgs) =
      some (toLowerRef.pkgPath,
        baseName toLowerRef.pkgPath ++ "." ++ toLowerRef.name ++ "(" ++
          String.intercalate ", " [quoteGoString "HELLO WORLD"] ++ ")") :=
  c6_amended_program_shape toLowerRef helloArgs [quoteGoString "HELLO WORLD"] rfl
    (by decide) (by decide) (by decide) (by decide)

/-- C8 counterexample: for a pure function whose static return type is not
string, a successful evaluation still materializes a string-typed literal, so
the returned node's type does not match the call's static return type. -/
theorem c8_counterexample :
    (evaluatePureFunctionAtCompileTime itoaWorld "" 7 itoaRef itoaArgs).1 =
      some ⟨"42", GoType.tString, 1, 7⟩ ∧
    itoaRef.resultType = GoType.tInt ∧
    GoType.tString ≠ GoType.tInt := by
  decide

/-- C8 (amended): whenever `evaluatePureFunctionAtCompileTime` succeeds, the
node it returns is a literal of the string type (matching the call's static
return type exactly when that type is string), its type-checked flag is set,
and it is tagged with the compiler's current source position (`base.Pos`). -/
theorem c8_amended_materialized_form (w : ExecWorld) (goroot : String) (basePos : Pos)
    (fn : FuncRef) (args : List Node) (nd : EvalNode)
    (h : (evaluatePureFunctionAtCompileTime w goroot basePos fn args).1 = some nd) :
    nd.type = GoType.tString ∧ nd.typecheckFlag = 1 ∧ nd.pos = basePos ∧
      (fn.resultType = GoType.tString → nd.type = fn.resultType) := by
  by_cases hg : lookupEnv w.environ "GO_PURE_EVAL_HELPER" ≠ ""
  · simp [evaluatePureFunctionAtCompileTime, hg] at h
  push_neg at hg
  by_cases hsrc : generateHelperProgram fn args = ""
  · simp [evaluatePureFunctionAtCompileTime, hg, hsrc] at h
  rw [evaluate_guard_off w goroot basePos fn args hg hsrc] at h
  simp only [] at h
  by_cases hz : (executeHelperProgram w goroot (generateHelperProgram fn args)).1 = ""
  · rw [if_pos hz] at h
    simp at h
  · rw [if_neg hz] at h
    have hnd : nd = ⟨(executeHelperProgram w goroot (generateHelperProgram fn args)).1,
        GoType.tString, 1, basePos⟩ := by
      injection h with h2
      exact h2.symm
    rw [hnd]
    exact ⟨rfl, rfl, rfl, fun hres => hres.symm⟩

/-- Witness for C8 (amended): the concrete successful evaluation yields a
string-typed, type-checked, position-tagged literal. -/
theorem c8_amended_materialized_form_witness :
    (⟨"hello world", GoType.tString, 1, 3⟩ : EvalNode).type = GoType.tString ∧
    (⟨"hello world", GoType.tString, 1, 3⟩ : EvalNode).typecheckFlag = 1 ∧
    (⟨"hello world", GoType.tString, 1, 3⟩ : EvalNode).pos = 3 ∧
    (toLowerRef.resultType = GoType.tString →
      (⟨"hello world", GoType.tString, 1, 3⟩ : EvalNode).type = toLowerRef.resultType) :=
  c8_amended_materialized_form okWorld "" 3 toLowerRef helloArgs
    ⟨"hello world", GoType.tString, 1, 3⟩ (by decide)

end Claims

end PureEval
